/-
Verification of the retrieval-pipeline core of the Test repository
(RAG chatbot backend) against its natural-language specification.

Shallow embedding conventions:
* Python dicts representing retrieved chunks become Lean structures; the
  optional "score" key becomes an `Option ℚ` read through `getScore`
  (mirroring `chunk.get("score", 0.0)`).
* Python floats are modelled as exact rationals (ℚ); IEEE-754 rounding is
  abstracted away, the claims under study are about comparison/decision
  structure, not rounding.
* Wall-clock fields (`rerank_time_ms`, `query_time_ms`) are dropped: they
  carry no information relevant to any claim.
* External effects (HTTP calls, the vector store, the filesystem) are
  passed in explicitly as values (`Option`/`Except` parameters), so the
  functions stay pure and total.
-/
import Mathlib

namespace RagCore

/-! ## Data model: retrieved chunks (dicts in `api/services/reranker.py`) -/

/-- A retrieved chunk as handled by `RerankerService`: a dict with a
`content` string, an optional original similarity `score`, and an optional
`rerank_score` added by LLM-mode reranking. -/
structure Chunk where
  content : String
  score : Option ℚ
  rerank_score : Option ℚ
deriving DecidableEq

/-- `chunk.get("score", 0.0)` from `reranker.py`. -/
def getScore (c : Chunk) : ℚ := c.score.getD 0

/-- `RerankResult` (api/schemas.py) without the wall-clock `rerank_time_ms`
field. -/
structure RerankResult where
  reranked_chunks : List Chunk
  scores : List ℚ
deriving DecidableEq

/-! ## `RerankerService._rerank_by_score` (reranker.py lines 156-185)

`sorted(chunks, key=lambda x: x.get("score", 0.0), reverse=True)` is a
stable sort placing higher scores first; `List.insertionSort` with the
relation below is exactly such a stable sort (an element is inserted
before the first strictly-smaller-scored element, so ties keep their
original relative order, as Python's stable `sorted` does). -/

/-- Descending-score ordering used by the score-based rerank sort. -/
def scoreGe (a b : Chunk) : Prop := getScore b ≤ getScore a

instance : DecidableRel scoreGe := fun a b =>
  inferInstanceAs (Decidable (getScore b ≤ getScore a))

instance : IsTotal Chunk scoreGe :=
  ⟨fun a b => le_total (getScore b) (getScore a)⟩

instance : IsTrans Chunk scoreGe :=
  ⟨fun _ _ _ hab hbc => le_trans hbc hab⟩

/-- `_rerank_by_score(chunks, top_k)`: sort by original score descending
(stable), keep the first `top_k`, report their scores.  (The `except`
branch of the Python function only guards dynamically-typed score values
and is unreachable for well-typed chunks.) -/
def rerank_by_score (chunks : List Chunk) (top_k : ℕ) : RerankResult :=
  let sorted_chunks := List.insertionSort scoreGe chunks
  let top_chunks := sorted_chunks.take top_k
  { reranked_chunks := top_chunks, scores := top_chunks.map getScore }

/-- `rerank_top_k = top_k or self.top_k_rerank` (reranker.py line 45):
Python `or` treats both `None` and `0` as falsy. -/
def effectiveTopK (top_k : Option ℕ) (default_top_k : ℕ) : ℕ :=
  match top_k with
  | none => default_top_k
  | some k => if k = 0 then default_top_k else k

/-- `RerankerService.rerank` (reranker.py lines 27-80) in score-based
fallback mode, i.e. with no LLM API key configured: empty input returns an
empty result; when `len(chunks) <= rerank_top_k` the chunks are returned
as-is (the early return at line 58, with no sorting); otherwise
`_rerank_by_score` runs. -/
def rerank_score_mode (chunks : List Chunk) (top_k : Option ℕ)
    (default_top_k : ℕ) : RerankResult :=
  let rerank_top_k := effectiveTopK top_k default_top_k
  if chunks.isEmpty then { reranked_chunks := [], scores := [] }
  else if chunks.length ≤ rerank_top_k then
    { reranked_chunks := chunks, scores := chunks.map getScore }
  else rerank_by_score chunks rerank_top_k

/-! ## `RerankerService._parse_llm_rankings` (reranker.py lines 206-227)

The regex `\b\d+\b` extracts a sequence of natural numbers from the LLM
response text; that extracted sequence is the `nums` parameter here. -/

/-- The filtering loop of `_parse_llm_rankings`: keep an index when
`0 <= idx < max_index` and it was not already kept (order-preserving
deduplication). -/
def collectIndices (max_index : ℕ) (nums : List ℕ) : List ℕ :=
  nums.foldl
    (fun acc idx =>
      if idx < max_index && !(acc.contains idx) then acc ++ [idx] else acc)
    []

/-- `_parse_llm_rankings`: if no index survived the filter, fall back to
`list(range(max_index))` (the original candidate order). -/
def parse_llm_rankings (nums : List ℕ) (max_index : ℕ) : List ℕ :=
  if (collectIndices max_index nums).isEmpty then List.range max_index
  else collectIndices max_index nums

/-- The reorder loop of `_rerank_with_llm` (reranker.py lines 137-144):
`for rank, idx in enumerate(ranked_indices[:top_k])`, guarded by
`idx < len(chunks)`; `rank` advances on every iteration, skipped or not.
`n` is `len(ranked_indices)`; the new score is `1.0 - rank / n`. -/
def llmPick (chunks : List Chunk) (n : ℕ) : ℕ → List ℕ → List (Chunk × ℚ)
  | _, [] => []
  | rank, idx :: rest =>
    if h : idx < chunks.length then
      let new_score : ℚ := 1 - (rank : ℚ) / (n : ℚ)
      ({ chunks.get ⟨idx, h⟩ with rerank_score := some new_score }, new_score)
        :: llmPick chunks n (rank + 1) rest
    else llmPick chunks n (rank + 1) rest

/-- `RerankerService._rerank_with_llm` (reranker.py lines 82-154) after a
successful HTTP round-trip, with `nums` the numbers the regex extracted
from the assessor's response text. -/
def rerank_with_llm (chunks : List Chunk) (top_k : ℕ) (nums : List ℕ) :
    RerankResult :=
  let ranked_indices := parse_llm_rankings nums chunks.length
  let picked := llmPick chunks ranked_indices.length 0 (ranked_indices.take top_k)
  { reranked_chunks := picked.map Prod.fst, scores := picked.map Prod.snd }

/-! ## `RetrieverService.retrieve` (api/services/retriever.py lines 41-110)

The vector store and its `similarity_search` are externals; the whole
query-time environment is passed in as one value:
* `none`                      — `self.vector_store` is `None` (line 69);
* `some (.error e)`           — `similarity_search` raised (line 104);
* `some (.ok results)`        — the search returned `results`. -/

/-- A langchain search hit: `page_content` plus the `score` read from its
metadata with default `1.0` (retriever.py line 90). -/
structure SearchResult where
  page_content : String
  metadata_score : Option ℚ

/-- One entry of `RetrievalResult.chunks` (the dict built at
retriever.py lines 87-91; the untyped `metadata` passthrough is dropped). -/
structure RetrievedChunk where
  content : String
  score : ℚ
deriving DecidableEq

/-- `RetrievalResult` (api/schemas.py) without the wall-clock
`query_time_ms` field. -/
structure RetrievalResult where
  chunks : List RetrievedChunk
  total_results : ℕ
deriving DecidableEq

/-- `RetrieverService.retrieve`: empty result when the store is missing or
the search raises; otherwise the converted hits with
`total_results = len(chunks)`. -/
def retrieve (vector_store : Option (Except String (List SearchResult))) :
    RetrievalResult :=
  match vector_store with
  | none => { chunks := [], total_results := 0 }
  | some (Except.error _) => { chunks := [], total_results := 0 }
  | some (Except.ok results) =>
    let chunks := results.map fun r =>
      { content := r.page_content, score := r.metadata_score.getD 1 }
    { chunks := chunks, total_results := chunks.length }

/-! ## `VectorStore.load_vectorstore` (api/services/vector_store.py 70-85)

The filesystem check and the `Chroma(...)` constructor are externals:
`persist_directory_exists` is the `os.path.exists` answer, `open_result`
is the constructor's outcome (which yields a collection carrying a record
count — never inspected by this function). -/

/-- A persisted Chroma collection, abstracted to its record count. -/
structure ChromaCollection where
  count : ℕ
deriving DecidableEq

/-- `load_vectorstore`: `True` when the directory exists and the `Chroma`
constructor succeeds, `False` when the directory is missing or the
constructor raises. No record-count check is performed. -/
def load_vectorstore (persist_directory_exists : Bool)
    (open_result : Except String ChromaCollection) : Bool :=
  if persist_directory_exists then
    match open_result with
    | Except.ok _ => true
    | Except.error _ => false
  else false

/-! ## Conversation memory (api/routers/ask_router.py lines 76-90)

`ask_question` appends the new turn to the per-conversation list and then
rebinds it to `conversation_memory[conversation_id][-10:]`. -/

/-- `ConversationTurn` (api/schemas.py); the timestamp is abstracted to a
number. -/
structure ConversationTurn where
  timestamp : ℕ
  user_question : String
  bot_response : String
  sources_used : List String
  user_intent : String
  topic : String
deriving DecidableEq

/-- One append performed by the ask endpoint on a conversation's stored
history: `(history + [turn])[-10:]` — `List.rtake l n` is exactly
`l.drop (l.length - n)`, the last `n` elements. -/
def appendTurn (history : List ConversationTurn) (turn : ConversationTurn) :
    List ConversationTurn :=
  (history ++ [turn]).rtake 10

/-! ## `DataDrivenTradeFilter.classify_question`
(api/services/data_driven_trade_filter.py lines 460-548)

The classifier state is whatever `_analyze_data_content` produced: the
`DataAnalysis` fields that `classify_question` reads, plus
`self.topic_document_map`.  Python sets (`trade_entities`) and dicts are
modelled as lists / association lists; a dict's `.get` is a first-match
lookup.  `self.data_analysis` being `None` is the `Option`'s `none`. -/

/-- `needle` occurs as a contiguous sublist of the argument (checked at
every suffix; the empty needle always occurs). -/
def hasSubList (needle : List Char) : List Char → Bool
  | [] => needle.isEmpty
  | c :: rest => needle.isPrefixOf (c :: rest) || hasSubList needle rest

/-- Python `needle in haystack` substring test.  Question text is carried
as `List Char` (a Python `str` is a character sequence). -/
def containsSub (haystack needle : List Char) : Bool :=
  hasSubList needle haystack

/-- Python `str.lower()`. -/
def pyLower (s : String) : List Char :=
  s.toList.map Char.toLower

/-- Python `str.strip()`: remove leading and trailing whitespace. -/
def pyStrip (cs : List Char) : List Char :=
  ((cs.dropWhile Char.isWhitespace).reverse.dropWhile Char.isWhitespace).reverse

/-- `question.lower().strip()`. -/
def pyLowerStrip (s : String) : List Char :=
  pyStrip (pyLower s)

/-- Splitting on whitespace: the accumulator holds the current word
reversed. -/
def splitWsAux : List Char → List Char → List (List Char)
  | acc, [] => [acc.reverse]
  | acc, c :: rest =>
    if c.isWhitespace then acc.reverse :: splitWsAux [] rest
    else splitWsAux (c :: acc) rest

/-- Python `str.split()` with no argument: split on whitespace, dropping
empty pieces. -/
def splitWords (cs : List Char) : List (List Char) :=
  (splitWsAux [] cs).filter fun w => !w.isEmpty

/-- Python `dict.get(key, default)` over an association list. -/
def dictGetQ (d : List (String × ℚ)) (key : String) (dflt : ℚ) : ℚ :=
  match d.find? (fun p => p.1 == key) with
  | some p => p.2
  | none => dflt

/-- `self.topic_document_map.get(topic, [])`. -/
def mapGetDocs (m : List (String × List String)) (key : String) :
    List String :=
  match m.find? (fun p => p.1 == key) with
  | some p => p.2
  | none => []

/-- Python `list(set(xs))` for strings.  CPython's set iteration order is
hash-salt dependent but fixed within a process; it is modelled here as
first-occurrence order, which preserves every property the claims use
(deduplication and in-process determinism). -/
def pyListSet (l : List String) : List String :=
  l.foldl (fun acc x => if acc.contains x then acc else acc ++ [x]) []

/-- The classifier state read by `classify_question`: the used fields of
`DataAnalysis` plus `self.topic_document_map`. -/
structure FilterState where
  key_topics : List String
  trade_entities : List String
  confidence_keywords : List (String × ℚ)
  topic_document_map : List (String × List String)

/-- `TopicClassification` (data_driven_trade_filter.py lines 37-44). -/
structure TopicClassification where
  is_data_related : Bool
  confidence_score : ℚ
  matched_topics : List String
  relevant_documents : List String
  reason : String
  coverage_gap : Bool
deriving DecidableEq

/-- `_get_topic_keywords` (lines 522-539): the static keyword map with
fallback `[topic.replace('_', ' ')]`. -/
def get_topic_keywords (topic : String) : List String :=
  if topic = "dgft" then ["dgft", "foreign trade policy", "directorate general"]
  else if topic = "export" then ["export", "exporting", "exporter", "outbound"]
  else if topic = "import" then ["import", "importing", "importer", "inbound"]
  else if topic = "customs" then ["customs", "duty", "tariff", "clearance"]
  else if topic = "certification" then ["certificate", "certification", "license"]
  else if topic = "valuation" then ["valuation", "value", "assessment"]
  else if topic = "classification" then ["classification", "hsn", "code"]
  else if topic = "schemes" then ["scheme", "incentive", "promotion"]
  else if topic = "compliance" then ["compliance", "regulation", "policy"]
  else if topic = "documentation" then ["document", "documentation", "paperwork"]
  else if topic = "logistics" then ["logistics", "transport", "warehouse"]
  else if topic = "dispute" then ["dispute", "appeal", "grievance"]
  else [String.mk (topic.toList.map fun c => if c = '_' then ' ' else c)]

/-- Whether any keyword of `topic` occurs in the lowered question (the
inner `for keyword ... break` loop of step 1). -/
def topicMatches (question_lower : List Char) (topic : String) : Bool :=
  (get_topic_keywords topic).any fun kw => containsSub question_lower kw.toList

/-- Step 1 of `classify_question` (lines 480-488): accumulate relevance,
matched topics and relevant documents over `key_topics`. -/
def topicScan (st : FilterState) (question_lower : List Char) :
    ℚ × List String × List String :=
  st.key_topics.foldl
    (fun acc topic =>
      if topicMatches question_lower topic then
        (acc.1 + dictGetQ st.confidence_keywords topic (1/2),
         acc.2.1 ++ [topic],
         acc.2.2 ++ mapGetDocs st.topic_document_map topic)
      else acc)
    (0, [], [])

/-- Step 2 of `classify_question` (lines 491-494): accumulate `0.8` per
known entity whose lowered name occurs in the question. -/
def entityScan (st : FilterState) (question_lower : List Char) :
    ℚ × List String :=
  st.trade_entities.foldl
    (fun acc entity =>
      if containsSub question_lower (pyLower entity) then
        (acc.1 + 8/10, acc.2 ++ ["entity:" ++ entity])
      else acc)
    (0, [])

/-- The generic domain-indicator vocabulary (line 501). -/
def trade_indicators : List String :=
  ["trade", "business", "export", "import", "commercial", "document",
   "procedure", "process", "customs", "duty"]

/-- The raw accumulated relevance score of a question. -/
def relevanceScore (st : FilterState) (question : String) : ℚ :=
  let question_lower := pyLowerStrip question
  (topicScan st question_lower).1 + (entityScan st question_lower).1

/-- `confidence_score = min(relevance_score / max(total_words, 1), 1.0)`
(line 498). -/
def confidenceScore (st : FilterState) (question : String) : ℚ :=
  let question_lower := pyLowerStrip question
  min (relevanceScore st question /
        ((max (splitWords question_lower).length 1 : ℕ) : ℚ)) 1

/-- `has_trade_indicators` (line 502). -/
def hasTradeIndicators (question : String) : Bool :=
  trade_indicators.any fun ind => containsSub (pyLowerStrip question) ind.toList

/-- Separator used by `', '.join(...)`. -/
def commaSep : String := ", "

/-- Python `f"{q:.2f}"`, with the exact rational rounded half-up in place
of IEEE double rounding (the claims never depend on the rendered text). -/
def format2dp (q : ℚ) : String :=
  let scaled : ℤ := ⌊q * 100 + 1 / 2⌋
  let frac := (scaled % 100).natAbs
  toString (scaled / 100) ++ "." ++ (if frac < 10 then "0" else "") ++
    toString frac

/-- `_generate_classification_reason` (lines 541-548). -/
def generate_classification_reason (matched_topics : List String)
    (confidence_score : ℚ) (coverage_gap : Bool) : String :=
  if coverage_gap then
    "No relevant topics found in trade data (confidence: " ++
      format2dp confidence_score ++ ")"
  else if !matched_topics.isEmpty then
    "Matched data topics: " ++
      String.intercalate commaSep (matched_topics.take 3) ++
      " (confidence: " ++ format2dp confidence_score ++ ")"
  else
    "Low confidence match (score: " ++ format2dp confidence_score ++ ")"

/-- `classify_question` (lines 460-520).  `none` is the
`self.data_analysis is None` branch; thresholds `0.05`, `0.3`, `0.8` and
`0.5` are the exact rationals `1/20`, `3/10`, `8/10`, `1/2`. -/
def classify_question (st : Option FilterState) (question : String) :
    TopicClassification :=
  match st with
  | none =>
    { is_data_related := true
      confidence_score := 1/2
      matched_topics := ["unknown"]
      relevant_documents := []
      reason := "Data analysis not available"
      coverage_gap := true }
  | some st =>
    let question_lower := pyLowerStrip question
    let tscan := topicScan st question_lower
    let escan := entityScan st question_lower
    let relevance_score := tscan.1 + escan.1
    let matched_topics := tscan.2.1 ++ escan.2
    let relevant_documents := tscan.2.2
    let confidence_score : ℚ :=
      min (relevance_score /
            ((max (splitWords question_lower).length 1 : ℕ) : ℚ)) 1
    let has_trade_indicators :=
      trade_indicators.any fun ind => containsSub question_lower ind.toList
    let is_data_related :=
      decide (confidence_score > 1/20) || decide (relevance_score > 3/10) ||
        has_trade_indicators
    let coverage_gap := decide (relevance_score = 0) && !has_trade_indicators
    { is_data_related := is_data_related
      confidence_score := confidence_score
      matched_topics := matched_topics
      relevant_documents := pyListSet (relevant_documents.take 5)
      reason :=
        generate_classification_reason matched_topics confidence_score
          coverage_gap
      coverage_gap := coverage_gap }

/-! ## Document splitting (api/services/document_loader.py lines 32-39,
336-355)

`DocumentLoader` delegates the split to langchain's
`RecursiveCharacterTextSplitter(chunk_size=1000, chunk_overlap=200)`, a
third-party dependency whose source is not part of this repository.  The
splitter is therefore modelled from the spec. -/

/-- Modelled from the spec: the chunking behaviour of the configured
text splitter, which is missing from the repository (it lives in the
langchain dependency).  Per spec sections 4.1 and 8 (Scenario A), text is
split into chunks of target length 1000 with fixed overlap 200, so
successive chunks start 800 characters apart; a 1,500-character document
yields exactly two chunks with the second starting at offset 800.
`chunkFrom cs off` emits the chunk starting at `off` and recurses at
`off + 800` while a full further chunk would still be cut short. -/
def chunkFrom (cs : List Char) (off : ℕ) : List (List Char) :=
  if off + 1000 < cs.length then
    (cs.drop off).take 1000 :: chunkFrom cs (off + 800)
  else [cs.drop off]
termination_by cs.length - off
decreasing_by omega

/-- Modelled from the spec: `split_text` of the configured splitter —
all chunks, starting from offset 0. -/
def splitText (cs : List Char) : List (List Char) :=
  chunkFrom cs 0

/-- Each consecutive pair of chunks overlaps in exactly 200 characters:
the last 200 characters of one chunk are the first 200 of the next. -/
def chunksOverlapBy200 : List (List Char) → Bool
  | [] => true
  | [_] => true
  | a :: b :: rest =>
    decide (a.drop (a.length - 200) = b.take 200) &&
      chunksOverlapBy200 (b :: rest)

/-- Reassemble a chunk list, dropping each later chunk's 200-character
overlap with its predecessor: the first chunk, then every subsequent
chunk minus its first 200 characters. -/
def joinChunks : List (List Char) → List Char
  | [] => []
  | c :: rest => c ++ (rest.map (List.drop 200)).flatten

/-! ## Theorems -/

/-- C10: when the corpus analysis is unavailable (`data_analysis is None`),
`classify_question` fails open: every question is marked in-scope
(`is_data_related = True`) with `confidence_score = 0.5` and
`coverage_gap = True`, so the domain gate admits it. -/
theorem classify_fails_open_without_analysis (question : String) :
    classify_question none question =
      { is_data_related := true
        confidence_score := 1/2
        matched_topics := ["unknown"]
        relevant_documents := []
        reason := "Data analysis not available"
        coverage_gap := true } := rfl

/-- C8: `classify_question` is deterministic — two calls on the same
question against the same unchanged classifier state return equal
classifications, field by field (in-scope flag, confidence, matched
topics, relevant documents, reason, coverage-gap flag). -/
theorem classify_question_deterministic (st : Option FilterState)
    (question : String) (c₁ c₂ : TopicClassification)
    (h₁ : c₁ = classify_question st question)
    (h₂ : c₂ = classify_question st question) :
    c₁.is_data_related = c₂.is_data_related ∧
    c₁.confidence_score = c₂.confidence_score ∧
    c₁.matched_topics = c₂.matched_topics ∧
    c₁.relevant_documents = c₂.relevant_documents ∧
    c₁.reason = c₂.reason ∧
    c₁.coverage_gap = c₂.coverage_gap := by
  subst h₁; subst h₂
  exact ⟨rfl, rfl, rfl, rfl, rfl, rfl⟩

/-- Witness for C8 at a concrete state and question. -/
theorem classify_question_deterministic_witness :
    (classify_question none "What is an export certificate?").is_data_related
      = (classify_question none "What is an export certificate?").is_data_related ∧
    (classify_question none "What is an export certificate?").confidence_score
      = (classify_question none "What is an export certificate?").confidence_score ∧
    (classify_question none "What is an export certificate?").matched_topics
      = (classify_question none "What is an export certificate?").matched_topics ∧
    (classify_question none "What is an export certificate?").relevant_documents
      = (classify_question none "What is an export certificate?").relevant_documents ∧
    (classify_question none "What is an export certificate?").reason
      = (classify_question none "What is an export certificate?").reason ∧
    (classify_question none "What is an export certificate?").coverage_gap
      = (classify_question none "What is an export certificate?").coverage_gap :=
  classify_question_deterministic none "What is an export certificate?" _ _ rfl rfl

/-- C2: for every internal failure condition — the vector store missing,
or the similarity search raising — `retrieve` returns the structurally
valid empty result (`chunks = []`, `total_results = 0`) instead of
propagating the failure (the Lean model is a total function, so no
exception can escape). -/
theorem retrieve_degrades_to_empty
    (env : Option (Except String (List SearchResult)))
    (h : env = none ∨ ∃ e, env = some (Except.error e)) :
    (retrieve env).chunks = [] ∧ (retrieve env).total_results = 0 := by
  rcases h with h | ⟨e, h⟩ <;> subst h <;> exact ⟨rfl, rfl⟩

/-- Witness for C2 at the concrete missing-store environment. -/
theorem retrieve_degrades_to_empty_witness :
    ((none : Option (Except String (List SearchResult))) = none ∨
      ∃ e, (none : Option (Except String (List SearchResult)))
        = some (Except.error e)) ∧
    (retrieve none).chunks = [] ∧ (retrieve none).total_results = 0 :=
  ⟨Or.inl rfl, retrieve_degrades_to_empty none (Or.inl rfl)⟩

/-- C5 counterexample: `load_vectorstore` declares success on an existing
directory whose collection holds zero records — no record-count
verification happens before returning `True`. -/
theorem load_vectorstore_succeeds_on_empty_collection :
    load_vectorstore true (Except.ok { count := 0 }) = true ∧
    (({ count := 0 } : ChromaCollection)).count = 0 :=
  ⟨rfl, rfl⟩

/-- C5 (amended): `load_vectorstore` returns `True` exactly when the
persist directory exists and the `Chroma` constructor succeeds — with no
record-count check — and returns `False` (rather than raising) when the
directory is missing or the constructor fails. -/
theorem load_vectorstore_success_iff (dir_exists : Bool)
    (open_result : Except String ChromaCollection) :
    load_vectorstore dir_exists open_result = true ↔
      (dir_exists = true ∧ ∃ c, open_result = Except.ok c) := by
  cases dir_exists <;> cases open_result <;> simp [load_vectorstore]

/-- The two-chunk input exhibiting C1's failure: scores `0.3` then `0.9`,
fewer candidates than the requested `top_k = 3`. -/
def c1Chunks : List Chunk :=
  [{ content := "low", score := some (3/10), rerank_score := none },
   { content := "high", score := some (9/10), rerank_score := none }]

/-- C1 counterexample: with 2 candidates scored `0.3, 0.9` and
`top_k = 3` in score-based fallback mode, `rerank` returns the scores in
their original order `[0.3, 0.9]`, which is not non-increasing — the
early return for `len(chunks) <= top_k` skips the sort; and with a
requested `top_k = 0` (falsy in Python, so replaced by the default 5) it
returns 2 chunks, more than the requested N. -/
theorem rerank_unsorted_when_fewer_than_top_k :
    (rerank_score_mode c1Chunks (some 3) 5).scores = [3/10, 9/10] ∧
    ¬ (rerank_score_mode c1Chunks (some 3) 5).scores.Pairwise
        (fun a b : ℚ => b ≤ a) ∧
    (rerank_score_mode c1Chunks (some 0) 5).reranked_chunks.length = 2 := by
  refine ⟨rfl, ?_, rfl⟩
  intro h
  have := (List.pairwise_cons.mp
    (show List.Pairwise (fun a b : ℚ => b ≤ a)
        ((3/10 : ℚ) :: [(9/10 : ℚ)]) from h)).1 (9/10) (by simp)
  norm_num at this

/-- Ten candidates with pairwise distinct scores, in shuffled order. -/
def demoChunks10 : List Chunk :=
  [{ content := "d0", score := some (mkRat 7 10), rerank_score := none },
   { content := "d1", score := some (mkRat 2 10), rerank_score := none },
   { content := "d2", score := some (mkRat 9 10), rerank_score := none },
   { content := "d3", score := some (mkRat 4 10), rerank_score := none },
   { content := "d4", score := some (mkRat 1 10), rerank_score := none },
   { content := "d5", score := some (mkRat 10 10), rerank_score := none },
   { content := "d6", score := some (mkRat 3 10), rerank_score := none },
   { content := "d7", score := some (mkRat 8 10), rerank_score := none },
   { content := "d8", score := some (mkRat 5 10), rerank_score := none },
   { content := "d9", score := some (mkRat 6 10), rerank_score := none }]

/-- C1 (amended): in score-based fallback mode, `rerank` returns at most
`effectiveTopK` chunks (the requested N, with `None` or `0` replaced by
the configured default); when the candidates number **more** than the
effective top-k it returns exactly effective-top-k chunks with
non-increasing scores, and when they number at most the effective top-k
it returns all candidates unchanged, in their original — not necessarily
sorted — order. -/
theorem rerank_score_mode_amended (chunks : List Chunk)
    (top_k : Option ℕ) (dflt : ℕ) :
    (rerank_score_mode chunks top_k dflt).reranked_chunks.length ≤
      effectiveTopK top_k dflt ∧
    (effectiveTopK top_k dflt < chunks.length →
      (rerank_score_mode chunks top_k dflt).scores.Pairwise
          (fun a b : ℚ => b ≤ a) ∧
      (rerank_score_mode chunks top_k dflt).reranked_chunks.length =
        effectiveTopK top_k dflt) ∧
    (chunks.length ≤ effectiveTopK top_k dflt →
      (rerank_score_mode chunks top_k dflt).reranked_chunks = chunks) := by
  by_cases hemp : chunks.isEmpty = true
  · have hnil : chunks = [] := List.isEmpty_iff.mp hemp
    subst hnil
    refine ⟨by simp [rerank_score_mode], ?_, ?_⟩
    · intro h; simp at h
    · intro _; rfl
  · by_cases hle : chunks.length ≤ effectiveTopK top_k dflt
    · have hres : rerank_score_mode chunks top_k dflt =
          { reranked_chunks := chunks, scores := chunks.map getScore } := by
        unfold rerank_score_mode
        rw [if_neg hemp, if_pos hle]
      rw [hres]
      exact ⟨hle, fun h => absurd hle (by omega), fun _ => rfl⟩
    · have hres : rerank_score_mode chunks top_k dflt =
          rerank_by_score chunks (effectiveTopK top_k dflt) := by
        unfold rerank_score_mode
        rw [if_neg hemp, if_neg hle]
      rw [hres]
      have hsorted : List.Sorted scoreGe (List.insertionSort scoreGe chunks) :=
        List.sorted_insertionSort scoreGe chunks
      have hslen : (List.insertionSort scoreGe chunks).length =
          chunks.length :=
        (List.perm_insertionSort scoreGe chunks).length_eq
      have hlen3 : (rerank_by_score chunks
          (effectiveTopK top_k dflt)).reranked_chunks.length =
          effectiveTopK top_k dflt := by
        show ((List.insertionSort scoreGe chunks).take
          (effectiveTopK top_k dflt)).length = _
        rw [List.length_take, hslen]
        omega
      refine ⟨le_of_eq hlen3, fun _ => ⟨?_, hlen3⟩, fun h => absurd h hle⟩
      show (((List.insertionSort scoreGe chunks).take
          (effectiveTopK top_k dflt)).map getScore).Pairwise
        (fun a b : ℚ => b ≤ a)
      rw [List.pairwise_map]
      exact hsorted.sublist (List.take_sublist _ _)

/-- Witness for C1 (amended) at ten concrete candidates and `top_k = 3`. -/
theorem rerank_score_mode_amended_witness :
    (rerank_score_mode demoChunks10 (some 3) 5).reranked_chunks.length ≤
      effectiveTopK (some 3) 5 ∧
    effectiveTopK (some 3) 5 < demoChunks10.length ∧
    (rerank_score_mode demoChunks10 (some 3) 5).scores.Pairwise
      (fun a b : ℚ => b ≤ a) :=
  ⟨(rerank_score_mode_amended demoChunks10 (some 3) 5).1,
   by decide,
   ((rerank_score_mode_amended demoChunks10 (some 3) 5).2.1 (by decide)).1⟩

/-- When the raw accumulated relevance is zero, the normalized confidence
is zero as well. -/
theorem confidenceScore_eq_zero_of_relevance_zero (st : FilterState)
    (question : String) (h : relevanceScore st question = 0) :
    confidenceScore st question = 0 := by
  unfold confidenceScore
  rw [h]
  simp

/-- C3: with a corpus analysis present, `classify_question` marks a
question in-scope exactly when the normalized confidence exceeds `0.05`,
or the raw accumulated relevance exceeds `0.3`, or the question contains
a generic domain-indicator word; and it sets `coverage_gap` only when
none of those three conditions hold. -/
theorem classify_decision_rule (st : FilterState) (question : String) :
    ((classify_question (some st) question).is_data_related = true ↔
      (confidenceScore st question > 1/20 ∨
        relevanceScore st question > 3/10 ∨
        hasTradeIndicators question = true)) ∧
    ((classify_question (some st) question).coverage_gap = true →
      ¬ (confidenceScore st question > 1/20 ∨
          relevanceScore st question > 3/10 ∨
          hasTradeIndicators question = true)) := by
  constructor
  · simp only [classify_question, confidenceScore, relevanceScore,
      hasTradeIndicators, Bool.or_eq_true, decide_eq_true_eq]
    tauto
  · intro h hcond
    simp only [classify_question, Bool.and_eq_true, decide_eq_true_eq,
      Bool.not_eq_true'] at h
    have hrel : relevanceScore st question = 0 := h.1
    have hind : hasTradeIndicators question = false := h.2
    have hconf : confidenceScore st question = 0 :=
      confidenceScore_eq_zero_of_relevance_zero st question hrel
    rcases hcond with hc | hc | hc
    · rw [hconf] at hc; norm_num at hc
    · rw [hrel] at hc; norm_num at hc
    · rw [hind] at hc; exact Bool.false_ne_true hc

/-- The classifier state produced by `_create_fallback_analysis`
(data_driven_trade_filter.py lines 363-374), used as a concrete witness
state. -/
def fallbackState : FilterState :=
  { key_topics := ["export", "import", "customs", "dgft", "trade"]
    trade_entities := ["DGFT", "CBIC", "IEC", "HSN"]
    confidence_keywords := [("trade", 1/2), ("export", 1/2), ("import", 1/2)]
    topic_document_map := [] }

/-- The concrete off-topic question used by the C3 witness (spec
Scenario B). -/
def offTopicQ : String := "What is the weather today?"

/-- Witness for C3: an off-topic question against the fallback state is a
coverage gap, and indeed none of the three in-scope conditions holds. -/
theorem classify_decision_rule_witness :
    (classify_question (some fallbackState) offTopicQ).coverage_gap = true ∧
    ¬ (confidenceScore fallbackState offTopicQ > 1/20 ∨
        relevanceScore fallbackState offTopicQ > 3/10 ∨
        hasTradeIndicators offTopicQ = true) := by
  have h1 : topicMatches (pyLowerStrip offTopicQ) "export" = false := by decide
  have h2 : topicMatches (pyLowerStrip offTopicQ) "import" = false := by decide
  have h3 : topicMatches (pyLowerStrip offTopicQ) "customs" = false := by decide
  have h4 : topicMatches (pyLowerStrip offTopicQ) "dgft" = false := by decide
  have h5 : topicMatches (pyLowerStrip offTopicQ) "trade" = false := by decide
  have e1 : containsSub (pyLowerStrip offTopicQ) (pyLower "DGFT") = false := by
    decide
  have e2 : containsSub (pyLowerStrip offTopicQ) (pyLower "CBIC") = false := by
    decide
  have e3 : containsSub (pyLowerStrip offTopicQ) (pyLower "IEC") = false := by
    decide
  have e4 : containsSub (pyLowerStrip offTopicQ) (pyLower "HSN") = false := by
    decide
  have ht : topicScan fallbackState (pyLowerStrip offTopicQ) = (0, [], []) := by
    simp [topicScan, fallbackState, h1, h2, h3, h4, h5]
  have he : entityScan fallbackState (pyLowerStrip offTopicQ) = (0, []) := by
    simp [entityScan, fallbackState, e1, e2, e3, e4]
  have hcg : (classify_question (some fallbackState) offTopicQ).coverage_gap
      = true := by
    simp [classify_question, ht, he]
    decide
  exact ⟨hcg, (classify_decision_rule fallbackState offTopicQ).2 hcg⟩

/-- `rtake` keeps at most `n` elements. -/
theorem length_rtake_le {α : Type} (l : List α) (n : ℕ) :
    (l.rtake n).length ≤ n := by
  rw [List.rtake_eq_reverse_take_reverse]
  simp [List.length_take]

/-- Taking the last `n` elements of the left list first does not change
the last `n` elements of a concatenation. -/
theorem rtake_append_rtake_left {α : Type} (l₁ l₂ : List α) (n : ℕ) :
    (l₁.rtake n ++ l₂).rtake n = (l₁ ++ l₂).rtake n := by
  rw [List.rtake_eq_reverse_take_reverse, List.rtake_eq_reverse_take_reverse,
    List.rtake_eq_reverse_take_reverse]
  rw [List.reverse_append, List.reverse_append, List.reverse_reverse]
  rw [List.take_append_eq_append_take, List.take_append_eq_append_take]
  rw [List.take_take]
  rw [Nat.min_eq_left (Nat.sub_le n l₂.reverse.length)]

/-- Folding `appendTurn` from any saturated state tracks the last 10 of
the full turn stream. -/
theorem foldl_appendTurn (ts : List ConversationTurn)
    (l : List ConversationTurn) :
    List.foldl appendTurn (l.rtake 10) ts = (l ++ ts).rtake 10 := by
  induction ts generalizing l with
  | nil => simp
  | cons t ts ih =>
    rw [List.foldl_cons]
    have h1 : appendTurn (l.rtake 10) t = (l ++ [t]).rtake 10 :=
      rtake_append_rtake_left l [t] 10
    rw [h1, ih (l ++ [t])]
    simp

/-- C4: after any sequence of appends by the ask endpoint, a
conversation's stored history is the last 10 turns of the appended
stream: its length never exceeds 10, evicted turns are always the oldest
(the survivors are a suffix of the stream), and the surviving turns keep
their append order. -/
theorem conversation_history_bounded (ts : List ConversationTurn) :
    (ts.foldl appendTurn []).length ≤ 10 ∧
    ts.foldl appendTurn [] = ts.rtake 10 ∧
    (ts.foldl appendTurn []) <:+ ts := by
  have h : ts.foldl appendTurn [] = ts.rtake 10 := by
    have h0 := foldl_appendTurn ts []
    simpa using h0
  refine ⟨?_, h, ?_⟩
  · rw [h]; exact length_rtake_le ts 10
  · rw [h, List.rtake]; exact List.drop_suffix _ _

/-- `chunkFrom` always begins with the (up to) 1000-character chunk cut
at `off`. -/
theorem chunkFrom_cons (cs : List Char) (off : ℕ) :
    ∃ t, chunkFrom cs off = (cs.drop off).take 1000 :: t := by
  rw [chunkFrom]
  split
  · exact ⟨_, rfl⟩
  · refine ⟨[], ?_⟩
    have hlen : (cs.drop off).length ≤ 1000 := by
      rw [List.length_drop]; omega
    rw [List.take_of_length_le hlen]

/-- Every pair of consecutive chunks produced by `chunkFrom` shares
exactly 200 characters. -/
theorem chunkFrom_overlap (cs : List Char) (off : ℕ) :
    chunksOverlapBy200 (chunkFrom cs off) = true := by
  induction off using chunkFrom.induct cs with
  | case1 off h ih =>
    obtain ⟨t, ht⟩ := chunkFrom_cons cs (off + 800)
    rw [chunkFrom, if_pos h, ht]
    rw [ht] at ih
    rw [chunksOverlapBy200, Bool.and_eq_true]
    refine ⟨?_, ih⟩
    rw [decide_eq_true_eq]
    have hl : ((cs.drop off).take 1000).length = 1000 := by
      rw [List.length_take, List.length_drop]; omega
    rw [hl]
    rw [List.drop_take, List.drop_drop, List.take_take]
    norm_num
  | case2 off h =>
    rw [chunkFrom, if_neg h]
    rfl

/-- Reassembling the chunks of `chunkFrom cs off` (dropping each 200-char
overlap) reconstructs `cs.drop off`. -/
theorem chunkFrom_join (cs : List Char) (off : ℕ) :
    joinChunks (chunkFrom cs off) = cs.drop off := by
  induction off using chunkFrom.induct cs with
  | case1 off h ih =>
    obtain ⟨t, ht⟩ := chunkFrom_cons cs (off + 800)
    rw [chunkFrom, if_pos h, ht]
    rw [ht] at ih
    have hihj : ((cs.drop (off + 800)).take 1000) ++
        (t.map (List.drop 200)).flatten = cs.drop (off + 800) := by
      rw [joinChunks] at ih
      exact ih
    have hBlen : (200 : ℕ) ≤ ((cs.drop (off + 800)).take 1000).length := by
      rw [List.length_take, List.length_drop]; omega
    rw [joinChunks, List.map_cons, List.flatten_cons]
    have key : List.drop 200 ((cs.drop (off + 800)).take 1000) ++
        (t.map (List.drop 200)).flatten = List.drop 200 (cs.drop (off + 800)) := by
      rw [← List.drop_append_of_le_length hBlen, hihj]
    rw [key, List.drop_drop]
    have h2 : (cs.drop off).drop 1000 = cs.drop (off + 800 + 200) := by
      rw [List.drop_drop]
    rw [← h2, List.take_append_drop]
  | case2 off h =>
    rw [chunkFrom, if_neg h, joinChunks]
    simp

/-- C6 (spec-modelled): for every document text longer than the chunk
size of 1000 characters, consecutive chunks produced by the splitter
overlap in exactly the configured 200 characters, and the chunks cover
the whole text with no gap. -/
theorem split_overlap_and_coverage (cs : List Char)
    (_h : 1000 < cs.length) :
    chunksOverlapBy200 (splitText cs) = true ∧ joinChunks (splitText cs) = cs := by
  refine ⟨chunkFrom_overlap cs 0, ?_⟩
  have h0 := chunkFrom_join cs 0
  simpa using h0

/-- Witness for C6 at a concrete 1,500-character document. -/
theorem split_overlap_and_coverage_witness :
    1000 < (List.replicate 1500 'a').length ∧
    chunksOverlapBy200 (splitText (List.replicate 1500 'a')) = true ∧
    joinChunks (splitText (List.replicate 1500 'a')) = List.replicate 1500 'a' :=
  ⟨by rw [List.length_replicate]; decide,
   split_overlap_and_coverage (List.replicate 1500 'a')
     (by rw [List.length_replicate]; decide)⟩

/-- The index filter of `_parse_llm_rankings` drops every out-of-range
and every duplicate index: its output is duplicate-free and in range. -/
theorem collectIndices_nodup_lt (m : ℕ) (nums : List ℕ) :
    (collectIndices m nums).Nodup ∧ ∀ i ∈ collectIndices m nums, i < m := by
  have key : ∀ (ns : List ℕ) (acc : List ℕ), acc.Nodup → (∀ i ∈ acc, i < m) →
      (ns.foldl
        (fun acc idx =>
          if idx < m && !(acc.contains idx) then acc ++ [idx] else acc)
        acc).Nodup ∧
      ∀ i ∈ ns.foldl
        (fun acc idx =>
          if idx < m && !(acc.contains idx) then acc ++ [idx] else acc)
        acc, i < m := by
    intro ns
    induction ns with
    | nil => intro acc h1 h2; exact ⟨h1, h2⟩
    | cons x xs ih =>
      intro acc h1 h2
      rw [List.foldl_cons]
      by_cases hx : (decide (x < m) && !(acc.contains x)) = true
      · rw [if_pos hx]
        simp at hx
        apply ih
        · rw [List.nodup_append]
          refine ⟨h1, List.nodup_singleton x, ?_⟩
          intro a ha hb
          rw [List.mem_singleton] at hb
          subst hb
          exact hx.2 ha
        · intro i hi
          rcases List.mem_append.mp hi with hi | hi
          · exact h2 i hi
          · rw [List.mem_singleton] at hi
            subst hi
            exact hx.1
      · rw [if_neg hx]
        exact ih acc h1 h2
  exact key nums [] List.nodup_nil (by intro i hi; cases hi)

/-- Every index surviving `_parse_llm_rankings` is in range (both in the
filtered branch and in the `range` fallback). -/
theorem parse_llm_rankings_lt (nums : List ℕ) (m : ℕ) :
    ∀ i ∈ parse_llm_rankings nums m, i < m := by
  intro i hi
  unfold parse_llm_rankings at hi
  split at hi
  · exact List.mem_range.mp hi
  · exact (collectIndices_nodup_lt m nums).2 i hi

/-- The scores assigned by the LLM reorder loop are determined purely by
rank position: `1 - rank / n` for consecutive ranks starting at `j`,
whenever all candidate indices are in range. -/
theorem llmPick_map_snd (chunks : List Chunk) (n : ℕ) :
    ∀ (idxs : List ℕ) (j : ℕ), (∀ i ∈ idxs, i < chunks.length) →
      (llmPick chunks n j idxs).map Prod.snd =
        (List.range' j idxs.length).map fun rank : ℕ =>
          1 - (rank : ℚ) / (n : ℚ) := by
  intro idxs
  induction idxs with
  | nil => intro j h; rfl
  | cons x xs ih =>
    intro j h
    have hx : x < chunks.length := h x (List.mem_cons_self x xs)
    rw [llmPick, dif_pos hx, List.map_cons, List.length_cons,
      List.range'_succ, List.map_cons]
    congr 1
    exact ih (j + 1) fun i hi => h i (List.mem_cons_of_mem x hi)

/-- On a run of consecutive indices `j, j+1, …` (the `range` fallback of
the parser), the LLM reorder loop keeps the candidates in their original
order; only `rerank_score` is rewritten, so any field reader `f` that
ignores `rerank_score` sees exactly the original slice. -/
theorem llmPick_map_fst_range' (chunks : List Chunk) (n : ℕ) {β : Type}
    (f : Chunk → β) (hf : ∀ c s, f { c with rerank_score := s } = f c) :
    ∀ (m j : ℕ), j + m ≤ chunks.length →
      (llmPick chunks n j (List.range' j m)).map (fun p => f p.1) =
        ((chunks.drop j).take m).map f := by
  intro m
  induction m with
  | zero =>
    intro j h
    rfl
  | succ m ih =>
    intro j h
    have hj : j < chunks.length := by omega
    rw [List.range'_succ, llmPick, dif_pos hj, List.map_cons]
    have hdrop : chunks.drop j = chunks.get ⟨j, hj⟩ :: chunks.drop (j + 1) := by
      rw [List.drop_eq_getElem_cons hj]
      rfl
    rw [hdrop, List.take_succ_cons, List.map_cons]
    congr 1
    · exact hf _ _
    · exact ih (j + 1) (by omega)

/-- `l.take (min n l.length) = l.take n`. -/
theorem take_min_length {α : Type} (l : List α) (n : ℕ) :
    l.take (min n l.length) = l.take n := by
  rcases le_total n l.length with h | h
  · rw [Nat.min_eq_left h]
  · rw [Nat.min_eq_right h, List.take_of_length_le (le_refl l.length),
      List.take_of_length_le h]

/-- C7 (amended): in LLM rerank mode, every out-of-range or duplicate
parsed index is dropped; retained candidates are re-scored purely by rank
position (`1 - rank/len(ranked_indices)`); and when parsing yields no
usable index at all, the loop keeps the candidates in their original
order truncated to `top_k` (rewriting only `rerank_score`) — it does not
re-sort them by original score. -/
theorem llm_rerank_amended (chunks : List Chunk) (top_k : ℕ)
    (nums : List ℕ) :
    (collectIndices chunks.length nums).Nodup ∧
    (∀ i ∈ collectIndices chunks.length nums, i < chunks.length) ∧
    (rerank_with_llm chunks top_k nums).scores =
      (List.range' 0
          (min top_k (parse_llm_rankings nums chunks.length).length)).map
        (fun rank : ℕ =>
          1 - (rank : ℚ) /
            ((parse_llm_rankings nums chunks.length).length : ℚ)) ∧
    (collectIndices chunks.length nums = [] →
      (rerank_with_llm chunks top_k nums).reranked_chunks.map Chunk.content =
          (chunks.map Chunk.content).take top_k ∧
      (rerank_with_llm chunks top_k nums).reranked_chunks.map Chunk.score =
          (chunks.map Chunk.score).take top_k) := by
  obtain ⟨hnd, hlt⟩ := collectIndices_nodup_lt chunks.length nums
  refine ⟨hnd, hlt, ?_, ?_⟩
  · show ((llmPick chunks (parse_llm_rankings nums chunks.length).length 0
        ((parse_llm_rankings nums chunks.length).take top_k)).map
          Prod.snd) = _
    rw [llmPick_map_snd chunks _ _ 0
      (fun i hi => parse_llm_rankings_lt nums chunks.length i
        (List.mem_of_mem_take hi))]
    rw [List.length_take]
  · intro hempty
    have hparse : parse_llm_rankings nums chunks.length =
        List.range chunks.length := by
      unfold parse_llm_rankings
      rw [hempty]
      rfl
    have hproj : ∀ {β : Type} (f : Chunk → β),
        (∀ c s, f { c with rerank_score := s } = f c) →
        (rerank_with_llm chunks top_k nums).reranked_chunks.map f =
          (chunks.map f).take top_k := by
      intro β f hf
      show ((llmPick chunks (parse_llm_rankings nums chunks.length).length 0
          ((parse_llm_rankings nums chunks.length).take top_k)).map
            Prod.fst).map f = _
      rw [List.map_map]
      rw [hparse, List.take_range, List.length_range, List.range_eq_range']
      have := llmPick_map_fst_range' chunks chunks.length f hf
        (min top_k chunks.length) 0 (by omega)
      rw [List.drop_zero] at this
      rw [show (f ∘ Prod.fst) = (fun p : Chunk × ℚ => f p.1) from rfl, this]
      rw [take_min_length, List.map_take]
    exact ⟨hproj Chunk.content (fun c s => rfl),
           hproj Chunk.score (fun c s => rfl)⟩

/-- Three candidates with pairwise distinct scores `0.1, 0.9, 0.5`, used
to separate the parse-fallback behaviour from score-based reranking. -/
def llmDemoChunks : List Chunk :=
  [{ content := "a", score := some (mkRat 1 10), rerank_score := none },
   { content := "b", score := some (mkRat 9 10), rerank_score := none },
   { content := "c", score := some (mkRat 1 2), rerank_score := none }]

/-- C7 counterexample: when the assessor's response parses to no usable
index (here: no numbers at all), the LLM rerank result keeps the original
candidate order (`a, b`) — it does **not** equal the score-descending
top-N (`b, c`) that score-based mode would produce, refuting the claim's
final clause. -/
theorem llm_empty_parse_not_score_fallback :
    collectIndices llmDemoChunks.length [] = [] ∧
    (rerank_with_llm llmDemoChunks 2 []).reranked_chunks.map Chunk.content ≠
      (rerank_by_score llmDemoChunks 2).reranked_chunks.map Chunk.content := by
  constructor
  · rfl
  · decide

/-- Witness for C7 (amended) at the concrete empty-parse input. -/
theorem llm_rerank_amended_witness :
    collectIndices llmDemoChunks.length [] = [] ∧
    (rerank_with_llm llmDemoChunks 2 []).reranked_chunks.map Chunk.content =
      (llmDemoChunks.map Chunk.content).take 2 ∧
    (rerank_with_llm llmDemoChunks 2 []).reranked_chunks.map Chunk.score =
      (llmDemoChunks.map Chunk.score).take 2 :=
  ⟨rfl,
   ((llm_rerank_amended llmDemoChunks 2 []).2.2.2 rfl).1,
   ((llm_rerank_amended llmDemoChunks 2 []).2.2.2 rfl).2⟩

/-- C9: reranking 10 candidates with pairwise distinct scores down to
`top_k = 3` in score-based fallback mode returns exactly 3 chunks, drawn
from the candidates, in strictly descending score order, and every
candidate left out scores strictly below every returned chunk — i.e. the
result is exactly the 3 highest-scored candidates, descending. -/
theorem rerank_top3_of_ten (chunks : List Chunk) (dflt : ℕ)
    (hlen : chunks.length = 10)
    (hnodup : (chunks.map getScore).Nodup) :
    (rerank_score_mode chunks (some 3) dflt).reranked_chunks.length = 3 ∧
    (rerank_score_mode chunks (some 3) dflt).reranked_chunks.Pairwise
      (fun a b => getScore b < getScore a) ∧
    (∀ c ∈ (rerank_score_mode chunks (some 3) dflt).reranked_chunks,
      c ∈ chunks) ∧
    (∀ c ∈ chunks,
      c ∉ (rerank_score_mode chunks (some 3) dflt).reranked_chunks →
      ∀ r ∈ (rerank_score_mode chunks (some 3) dflt).reranked_chunks,
        getScore c < getScore r) := by
  have h1 : ¬(chunks.isEmpty = true) := by
    cases chunks with
    | nil => simp at hlen
    | cons a l => simp
  have h2 : ¬(chunks.length ≤ effectiveTopK (some 3) dflt) := by
    have he : effectiveTopK (some 3) dflt = 3 := rfl
    rw [he, hlen]
    omega
  have hres : rerank_score_mode chunks (some 3) dflt =
      rerank_by_score chunks 3 := by
    unfold rerank_score_mode
    rw [if_neg h1, if_neg h2]
    rfl
  rw [hres]
  have hrr : (rerank_by_score chunks 3).reranked_chunks
      = (List.insertionSort scoreGe chunks).take 3 := rfl
  rw [hrr]
  have hperm : List.Perm (List.insertionSort scoreGe chunks) chunks :=
    List.perm_insertionSort scoreGe chunks
  have hsorted : List.Sorted scoreGe (List.insertionSort scoreGe chunks) :=
    List.sorted_insertionSort scoreGe chunks
  have hslen : (List.insertionSort scoreGe chunks).length = 10 := by
    rw [hperm.length_eq, hlen]
  have hnodupc : chunks.Nodup := List.Nodup.of_map getScore hnodup
  have hnodups : (List.insertionSort scoreGe chunks).Nodup :=
    hperm.nodup_iff.mpr hnodupc
  have hinj : ∀ ⦃a⦄, a ∈ chunks → ∀ ⦃b⦄, b ∈ chunks →
      getScore a = getScore b → a = b :=
    List.inj_on_of_nodup_map hnodup
  have hmem3 : ∀ c ∈ (List.insertionSort scoreGe chunks).take 3,
      c ∈ chunks := by
    intro c hc
    exact hperm.mem_iff.mp (List.mem_of_mem_take hc)
  refine ⟨?_, ?_, hmem3, ?_⟩
  · rw [List.length_take, hslen]
    norm_num
  · have hp : ((List.insertionSort scoreGe chunks).take 3).Pairwise scoreGe :=
      hsorted.sublist (List.take_sublist 3 _)
    have hpn : ((List.insertionSort scoreGe chunks).take 3).Pairwise
        (fun a b => a ≠ b) :=
      hnodups.sublist (List.take_sublist 3 _)
    refine List.Pairwise.imp_of_mem ?_ (hp.and hpn)
    intro a b ha hb hab
    exact lt_of_le_of_ne hab.1
      (fun hs => hab.2 (hinj (hmem3 b hb) (hmem3 a ha) hs).symm)
  · intro c hc hcnot r hr
    have hcs : c ∈ List.insertionSort scoreGe chunks := hperm.mem_iff.mpr hc
    have hsplit : c ∈ (List.insertionSort scoreGe chunks).take 3 ++
        (List.insertionSort scoreGe chunks).drop 3 := by
      rw [List.take_append_drop]
      exact hcs
    rcases List.mem_append.mp hsplit with hin | hdrop
    · exact absurd hin hcnot
    · have hge : scoreGe r c :=
        List.Pairwise.rel_of_mem_take_of_mem_drop hsorted hr hdrop
      refine lt_of_le_of_ne hge (fun hs => ?_)
      have : c = r := hinj hc (hmem3 r hr) hs
      subst this
      exact hcnot hr

/-- Witness for C9 at ten concrete distinct-score candidates. -/
theorem rerank_top3_of_ten_witness :
    demoChunks10.length = 10 ∧
    (demoChunks10.map getScore).Nodup ∧
    (rerank_score_mode demoChunks10 (some 3) 5).reranked_chunks.length = 3 ∧
    (rerank_score_mode demoChunks10 (some 3) 5).reranked_chunks.Pairwise
      (fun a b => getScore b < getScore a) ∧
    (∀ c ∈ (rerank_score_mode demoChunks10 (some 3) 5).reranked_chunks,
      c ∈ demoChunks10) ∧
    (∀ c ∈ demoChunks10,
      c ∉ (rerank_score_mode demoChunks10 (some 3) 5).reranked_chunks →
      ∀ r ∈ (rerank_score_mode demoChunks10 (some 3) 5).reranked_chunks,
        getScore c < getScore r) := by
  obtain ⟨ha, hb, hc, hd⟩ :=
    rerank_top3_of_ten demoChunks10 5 (by decide) (by decide)
  exact ⟨by decide, by decide, ha, hb, hc, hd⟩

end RagCore
